import Mathlib

/-!
Verification of the segment hierarchy and activity-configuration core
(`backend/src/services/segmentService.ts`).

The service manipulates JavaScript objects (string-keyed, insertion-ordered
maps) and a persistent segment store accessed through a repository behind a
transaction. We embed:

* JS objects as association lists (`ObjMap`), with assignment replacing the
  value of an existing key in place and appending a fresh key at the end,
  exactly as JS property assignment behaves on objects without duplicate keys;
* the repository and transaction collaborators (which live outside the
  analysed sources) as explicit state passing over a `DB` of segments, with a
  fault schedule `Nat → Bool` that lets any repository call of an operation
  throw, so the rollback behaviour of the service can be analysed;
* each service method as a Lean function following the control flow of the
  TypeScript line by line.
-/

set_option autoImplicit false

namespace SegmentSpec

instance {ε α : Type} [DecidableEq ε] [DecidableEq α] : DecidableEq (Except ε α) :=
  fun x y =>
    match x, y with
    | .error a, .error b =>
      if h : a = b then isTrue (congrArg Except.error h)
      else isFalse (fun hh => h (Except.error.inj hh))
    | .ok a, .ok b =>
      if h : a = b then isTrue (congrArg Except.ok h)
      else isFalse (fun hh => h (Except.ok.inj hh))
    | .error _, .ok _ => isFalse (fun hh => Except.noConfusion hh)
    | .ok _, .error _ => isFalse (fun hh => Except.noConfusion hh)

/-- JS truthiness of an optional string field: `undefined`/`null` and the
empty string are falsy, every other string is truthy. -/
def truthy : Option String → Bool
  | none => false
  | some s => s ≠ ""

/-! ## JS objects as association lists -/

/-- A JavaScript object with values of type `α`: string keys in insertion
order. -/
abbrev ObjMap (α : Type) := List (String × α)

/-- Property read `o[k]`: the value at the first occurrence of the key. -/
def jsGet {α : Type} : ObjMap α → String → Option α
  | [], _ => none
  | e :: rest, k => if e.1 = k then some e.2 else jsGet rest k

/-- Property assignment `o[k] = v`: replace the value at an existing key in
place, append the key at the end otherwise. -/
def jsSet {α : Type} : ObjMap α → String → α → ObjMap α
  | [], k, v => [(k, v)]
  | e :: rest, k, v => if e.1 = k then (k, v) :: rest else e :: jsSet rest k v

/-- Property deletion `delete o[k]`. -/
def jsDelete {α : Type} : ObjMap α → String → ObjMap α
  | [], _ => []
  | e :: rest, k => if e.1 = k then jsDelete rest k else e :: jsDelete rest k

/-- Well-formed JS object: no duplicate keys (true of every object a JS
program can build). -/
def WFobj {α : Type} (l : ObjMap α) : Prop := (l.map Prod.fst).Nodup

/-! ## The segment data model -/

/-- The three levels of the hierarchy. -/
inductive SegmentLevel where
  | PROJECT_GROUP
  | PROJECT
  | SUBPROJECT
deriving DecidableEq, Repr

/-- The creation payload of a segment (`SegmentData` of `segmentTypes.ts`,
restricted to the fields the service manipulates). Optional fields model
fields that may be `undefined` in the TypeScript payload. -/
structure SegmentData where
  name : String
  slug : String
  parentSlug : Option String := none
  parentName : Option String := none
  grandparentSlug : Option String := none
  grandparentName : Option String := none
deriving DecidableEq, Repr

/-- A persisted segment row. `level` and `parentId` are maintained by the
storage layer (see `repoCreate`). -/
structure Segment where
  id : Nat
  level : SegmentLevel
  parentId : Option Nat
  data : SegmentData
deriving DecidableEq, Repr

/-- The segment store: persisted rows plus a fresh-id counter. -/
structure DB where
  segments : List Segment
  nextId : Nat
deriving DecidableEq, Repr

/-- Well-formed store: distinct row ids, all below the fresh-id counter. -/
def WFdb (db : DB) : Prop :=
  (db.segments.map Segment.id).Nodup ∧ ∀ s ∈ db.segments, s.id < db.nextId

/-- The errors the service can raise. Validation errors and the
missing-parent error are `new Error(message)` in the source; `e400` errors
carry the localisation key of an `Error400`; `repo i` is an injected failure
of the i-th repository call of the operation. -/
inductive Err where
  /-- "Project groups can not have parent or grandparent segments." -/
  | groupHasParent
  /-- "Projects can not have grandparent segments." -/
  | projectHasGrandparent
  /-- "Missing parentSlug. Projects must belong to a project group." -/
  | projectMissingParentSlug
  /-- "Project group (parentName) does not exist." — carries the
  `data.parentName` interpolated into the message. -/
  | projectGroupNotExists (parentName : Option String)
  /-- Dereference of a null segment (segment not found by id). -/
  | segmentNull
  /-- `Error400` with a localisation key. -/
  | e400 (messageKey : String)
  /-- `Error400` with a localisation key and an argument. -/
  | e400key (messageKey : String) (arg : String)
  /-- Failure injected at the i-th repository call. -/
  | repo (i : Nat)
deriving DecidableEq, Repr

/-- What happened to the transaction an operation opened. -/
inductive TxnDisposition where
  /-- No transaction was ever created. -/
  | noTxn
  /-- The transaction was committed. -/
  | committed
  /-- The transaction was rolled back. -/
  | rolledBack
  /-- The transaction was created but neither committed nor rolled back
  when the operation terminated. -/
  | leaked
deriving DecidableEq, Repr

/-! ## The repository collaborator

`SegmentRepository` and `SequelizeRepository` are not part of the analysed
sources; the definitions below follow the contract stated for them by the
specification (creation derives the level from the parent fields, children
carry denormalized parent fields and are linked to their parent row). -/

/-- Modelled from the spec: the storage layer derives the level of a created
row from its parent fields (invariant I1): a grandparent makes a subproject,
a parent alone makes a project, neither makes a project group. -/
def deriveLevel (d : SegmentData) : SegmentLevel :=
  if truthy d.grandparentSlug then .SUBPROJECT
  else if truthy d.parentSlug then .PROJECT
  else .PROJECT_GROUP

/-- `SegmentRepository.findById`: first row with the given id, `null` when
absent. -/
def findById (db : DB) (id : Nat) : Option Segment :=
  db.segments.find? (fun s => decide (s.id = id))

/-- `SegmentRepository.findBySlug(slug, level)`: first row with the given
slug at the given level, `null` when absent. -/
def findSlugLevel (db : DB) (slug : String) (lvl : SegmentLevel) : Option Segment :=
  db.segments.find? (fun s => decide (s.data.slug = slug ∧ s.level = lvl))

/-- Modelled from the spec: the storage layer links a created row to its
parent row (children are later addressed by parent id in
`updateChildrenBulk`). The parent of a project is the group named by its
`parentSlug`; the parent of a subproject is the project named by its
`parentSlug`. -/
def resolveParent (db : DB) (d : SegmentData) : SegmentLevel → Option Nat
  | .PROJECT_GROUP => none
  | .PROJECT =>
    match d.parentSlug with
    | some ps => (findSlugLevel db ps .PROJECT_GROUP).map Segment.id
    | none => none
  | .SUBPROJECT =>
    match d.parentSlug with
    | some ps => (findSlugLevel db ps .PROJECT).map Segment.id
    | none => none

/-- Modelled from the spec: `SegmentRepository.create(data)` persists a new
row with a fresh id and returns it. `i` is the index of this repository call
inside the current operation; the call throws when the fault schedule marks
that index. -/
def repoCreate (faults : Nat → Bool) (i : Nat) (db : DB) (d : SegmentData) :
    Except Err (Segment × DB) :=
  if faults i then .error (.repo i)
  else
    let lvl := deriveLevel d
    let seg : Segment := ⟨db.nextId, lvl, resolveParent db d lvl, d⟩
    .ok (seg, ⟨db.segments ++ [seg], db.nextId + 1⟩)

/-- `SegmentRepository.findBySlug` as a fallible repository call. -/
def repoFindBySlug (faults : Nat → Bool) (i : Nat) (db : DB) (slug : String)
    (lvl : SegmentLevel) : Except Err (Option Segment) :=
  if faults i then .error (.repo i) else .ok (findSlugLevel db slug lvl)

/-- The update payload of `SegmentService.update` (`SegmentUpdateData`),
restricted to the fields the hierarchy logic inspects. -/
structure SegmentUpdateData where
  name : Option String := none
  slug : Option String := none
deriving DecidableEq, Repr

/-- Apply an update payload to a row: provided fields overwrite, absent
fields are kept. -/
def applyUpdate (s : Segment) (d : SegmentUpdateData) : Segment :=
  { s with data := { s.data with
      name := d.name.getD s.data.name
      slug := d.slug.getD s.data.slug } }

/-- Map a row transformation over the store. -/
def mapSegs (f : Segment → Segment) (db : DB) : DB :=
  ⟨db.segments.map f, db.nextId⟩

/-- Modelled from the spec: `SegmentRepository.update(id, data)` applies the
payload to the row with the given id. -/
def repoUpdate (faults : Nat → Bool) (i : Nat) (db : DB) (id : Nat)
    (d : SegmentUpdateData) : Except Err DB :=
  if faults i then .error (.repo i)
  else .ok (mapSegs (fun s => if s.id = id then applyUpdate s d else s) db)

/-- Modelled from the spec: the single bulk write of
`SegmentRepository.updateChildrenBulk(parentId, {name, slug})` on one child
row: the denormalized `parentName`/`parentSlug` copies are refreshed from
the provided fields. -/
def bulkApply (name slug : Option String) (pid : Nat) (s : Segment) : Segment :=
  if s.parentId = some pid then
    { s with data := { s.data with
        parentName := match name with | none => s.data.parentName | some n => some n
        parentSlug := match slug with | none => s.data.parentSlug | some sl => some sl } }
  else s

/-- Modelled from the spec: `SegmentRepository.updateChildrenBulk` — one
bulk update keyed by the parent id, touching every direct child. -/
def repoChildrenBulk (faults : Nat → Bool) (i : Nat) (db : DB) (pid : Nat)
    (name slug : Option String) : Except Err DB :=
  if faults i then .error (.repo i)
  else .ok (mapSegs (bulkApply name slug pid) db)

/-- `SegmentRepository.isSubproject`. -/
def isSubproject (s : Segment) : Bool := s.level == .SUBPROJECT

/-- The fault schedule under which every repository call succeeds. -/
def noFaults : Nat → Bool := fun _ => false

/-- The fault schedule failing exactly the i-th repository call. -/
def faultOnly (i : Nat) : Nat → Bool := fun j => j == i

/-! ## The hierarchy operations of `SegmentService` -/

/-- The outcome of a service operation: the returned segment (or the error
thrown), the committed store, and what became of the transaction. -/
abbrev SvcResult := Except Err (Option Segment) × DB × TxnDisposition

/-- `SegmentService.createProjectGroup` (segmentService.ts:51-84): reject a
parent or grandparent slug; open a transaction; create the group, its
PROJECT counterpart (`parentSlug`/`parentName` set to the group slug/name)
and its SUBPROJECT counterpart (all four parent fields set to the group
slug/name); commit and re-read the group by id. Any failure inside the try
block rolls back and re-throws. -/
def createProjectGroup (faults : Nat → Bool) (db : DB) (data : SegmentData) : SvcResult :=
  if truthy data.parentSlug || truthy data.grandparentSlug then
    (.error .groupHasParent, db, .noTxn)
  else
    match repoCreate faults 0 db data with
    | .error e => (.error e, db, .rolledBack)
    | .ok (projectGroup, db1) =>
      match repoCreate faults 1 db1
          { data with parentSlug := some data.slug, parentName := some data.name } with
      | .error e => (.error e, db, .rolledBack)
      | .ok (_, db2) =>
        match repoCreate faults 2 db2
            { data with parentSlug := some data.slug, grandparentSlug := some data.slug,
                        parentName := some data.name, grandparentName := some data.name } with
        | .error e => (.error e, db, .rolledBack)
        | .ok (_, db3) => (.ok (findById db3 projectGroup.id), db3, .committed)

/-- `SegmentService.createProject` (segmentService.ts:86-125): reject a
grandparent slug or a missing parent slug; create the transaction; look the
parent group up by slug — the lookup and the not-found throw happen before
the try block, so a failure there leaves the transaction open (neither
committed nor rolled back); then create the project and its SUBPROJECT
counterpart inside the try block, commit and re-read the project. -/
def createProject (faults : Nat → Bool) (db : DB) (data : SegmentData) : SvcResult :=
  if truthy data.grandparentSlug then
    (.error .projectHasGrandparent, db, .noTxn)
  else if !truthy data.parentSlug then
    (.error .projectMissingParentSlug, db, .noTxn)
  else
    -- the transaction is created here (line 95), before the parent lookup
    match repoFindBySlug faults 0 db (data.parentSlug.getD "") .PROJECT_GROUP with
    | .error e => (.error e, db, .leaked)
    | .ok none => (.error (.projectGroupNotExists data.parentName), db, .leaked)
    | .ok (some _) =>
      match repoCreate faults 1 db data with
      | .error e => (.error e, db, .rolledBack)
      | .ok (project, db1) =>
        match repoCreate faults 2 db1
            { data with parentSlug := some data.slug, grandparentSlug := data.parentSlug,
                        parentName := some data.name } with
        | .error e => (.error e, db, .rolledBack)
        | .ok (_, db2) => (.ok (findById db2 project.id), db2, .committed)

/-- `SegmentService.update` (segmentService.ts:26-49): load the segment,
open a transaction, apply the field update; when the segment is not a
subproject and `data.name || data.slug` is truthy, refresh the denormalized
parent fields of every direct child in one bulk update keyed by the
segment id; commit and re-read. Any failure inside the try block rolls back
and re-throws. -/
def update (faults : Nat → Bool) (db : DB) (id : Nat) (data : SegmentUpdateData) : SvcResult :=
  match findById db id with
  | none => (.error .segmentNull, db, .rolledBack)
  | some segment =>
    match repoUpdate faults 0 db id data with
    | .error e => (.error e, db, .rolledBack)
    | .ok db1 =>
      if !isSubproject segment && (truthy data.name || truthy data.slug) then
        match repoChildrenBulk faults 1 db1 segment.id data.name data.slug with
        | .error e => (.error e, db, .rolledBack)
        | .ok db2 => (.ok (findById db2 id), db2, .committed)
      else
        (.ok (findById db1 id), db1, .committed)

/-! ## The activity-type configuration

`customActivityTypes` is a nested JS object `platform → typeKey → settings`.
A platform key may hold `null` (falsy) instead of a map, which the service
filters out; we model the value of a platform key as an
`Option (ObjMap ActivityTypeDefinition)`. -/

/-- The `display` block of an activity-type definition. -/
structure ActivityTypeDisplay where
  default : String
  short : String
  channel : String
deriving DecidableEq, Repr

/-- One activity-type definition. -/
structure ActivityTypeDefinition where
  display : ActivityTypeDisplay
  isContribution : Bool
deriving DecidableEq, Repr

/-- The nested custom activity-type configuration of a segment. -/
abbrev Custom := ObjMap (Option (ObjMap ActivityTypeDefinition))

instance : DecidableEq Custom := inferInstance

/-- The lowercasing `toLowerCase()` applies to type and platform keys (the
per-character lowering of the standard library, phrased over the character list
so that it evaluates by kernel reduction). -/
def jsToLower (s : String) : String := ⟨s.data.map Char.toLower⟩

/-- The definition the service builds from a type name:
`{display: {default: type, short: type, channel: ""}, isContribution: false}`. -/
def defaultDefinition (type : String) : ActivityTypeDefinition :=
  ⟨⟨type, type, ""⟩, false⟩

/-- Truthy read of a platform key: `custom[p]` as a map, `none` when the key
is absent or holds `null`. -/
def getPlat (c : Custom) (p : String) : Option (ObjMap ActivityTypeDefinition) :=
  match jsGet c p with
  | some (some m) => some m
  | _ => none

/-- Nested lookup `custom[p][k]` (for stating properties). -/
def lookupNested (c : Custom) (p k : String) : Option ActivityTypeDefinition :=
  (getPlat c p).bind (fun m => jsGet m k)

/-- Well-formed nested configuration: no duplicate platform keys, no
duplicate type keys inside a platform (true of every JS object). -/
def WFcustom (c : Custom) : Prop :=
  WFobj c ∧ ∀ e ∈ c, ∀ m, e.2 = some m → WFobj m

/-- The inner reduce of `unnestActivityTypes`: spread the type map of one
platform into the accumulator, tagging each entry with the platform. -/
def foldPlatform (platform : String) :
    ObjMap ActivityTypeDefinition → ObjMap (ActivityTypeDefinition × String) →
    ObjMap (ActivityTypeDefinition × String)
  | [], acc => acc
  | e :: rest, acc => foldPlatform platform rest (jsSet acc e.1 (e.2, platform))

/-- The outer reduce of `unnestActivityTypes`: platforms with a falsy type
map are filtered out, the others are spread into the accumulator in order,
so a later platform overwrites the entry of an earlier one at the same type
key. -/
def unnestFrom : Custom → ObjMap (ActivityTypeDefinition × String) →
    ObjMap (ActivityTypeDefinition × String)
  | [], acc => acc
  | e :: rest, acc =>
    unnestFrom rest (match e.2 with
      | none => acc
      | some m => foldPlatform e.1 m acc)

/-- `SegmentService.unnestActivityTypes` (segmentService.ts:218-233): flatten
`platform → typeKey → settings` into `typeKey → {...settings, platform}`. -/
def unnestActivityTypes (c : Custom) : ObjMap (ActivityTypeDefinition × String) :=
  unnestFrom c []

/-- `SegmentService.createActivityType` (segmentService.ts:159-200): require
a type name; lowercase the type and platform keys; initialize a falsy
platform map to the empty object; when the type key already exists under
that platform, return the configuration unchanged without writing; otherwise
insert the default definition and write the blob back. The boolean of the
result records whether a repository write happened. -/
def createActivityType (c : Custom) (type : String) (platform : String) :
    Except Err (Custom × Bool) :=
  if type = "" then
    .error (.e400 "settings.activityTypes.errors.typeRequiredWhenCreating")
  else
    let typeKey := jsToLower type
    let platformKey := jsToLower platform
    match getPlat c platformKey with
    | some m =>
      if (jsGet m typeKey).isSome then .ok (c, false)
      else .ok (jsSet c platformKey (some (jsSet m typeKey (defaultDefinition type))), true)
    | none =>
      -- `custom[platformKey]` is first initialized to `{}`; the key then
      -- cannot exist, and the two assignments collapse into one.
      .ok (jsSet c platformKey (some (jsSet [] typeKey (defaultDefinition type))), true)

/-- `SegmentService.updateActivityType` (segmentService.ts:235-268): require
a type name; look the key up in the flattened view; unknown keys raise a
not-found `Error400`; otherwise overwrite the entry under the platform the
flattened view attributes the key to. -/
def updateActivityType (c : Custom) (key : String) (type : String) : Except Err Custom :=
  if type = "" then
    .error (.e400 "settings.activityTypes.errors.typeRequiredWhenUpdating")
  else
    match jsGet (unnestActivityTypes c) key with
    | none => .error (.e400key "settings.activityTypes.errors.notFound" key)
    | some entry =>
      match getPlat c entry.2 with
      | some m => .ok (jsSet c entry.2 (some (jsSet m key (defaultDefinition type))))
      | none => .ok c -- unreachable: the owning platform of a flattened entry exists

/-- `SegmentService.destroyActivityType` (segmentService.ts:270-286): look
the key up in the flattened view; when present, delete it under the platform
the flattened view attributes it to and write back; when absent, return the
configuration unchanged without writing. The boolean records whether a
repository write happened. -/
def destroyActivityType (c : Custom) (key : String) : Custom × Bool :=
  match jsGet (unnestActivityTypes c) key with
  | some entry =>
    match getPlat c entry.2 with
    | some m => (jsSet c entry.2 (some (jsDelete m key)), true)
    | none => (c, true) -- unreachable: the owning platform of a flattened entry exists
  | none => (c, false)

/-- The nested insertion `custom[platform][key] = settings` that
`createActivityType` performs (initializing a falsy platform map first), as
a standalone operation for relating it to the flattening. -/
def nestedInsert (c : Custom) (p k : String) (s : ActivityTypeDefinition) : Custom :=
  match getPlat c p with
  | none => jsSet c p (some (jsSet [] k s))
  | some m => jsSet c p (some (jsSet m k s))

/-! ## Activity channels -/

/-- `SegmentService.updateActivityChannels` (segmentService.ts:295-322):
require a channel; when the platform already has a channel list, append the
channel only when it is not already in the list; otherwise create a
singleton list; write back. -/
def updateActivityChannels (channels : ObjMap (List String))
    (platform channel : String) : Except Err (ObjMap (List String)) :=
  if channel = "" then
    .error (.e400 "settings.activityChannels.errors.typeRequiredWhenCreating")
  else
    match jsGet channels platform with
    | some channelList =>
      if channel ∈ channelList then .ok channels
      else .ok (jsSet channels platform (channelList ++ [channel]))
    | none => .ok (jsSet channels platform [channel])

/-! ## Lemmas on JS object maps -/

theorem jsGet_jsSet_self {α : Type} (l : ObjMap α) (k : String) (v : α) :
    jsGet (jsSet l k v) k = some v := by
  induction l with
  | nil => simp [jsSet, jsGet]
  | cons e rest ih =>
    by_cases h : e.1 = k
    · simp [jsSet, jsGet, h]
    · simp [jsSet, jsGet, h, ih]

theorem jsGet_jsSet_ne {α : Type} (l : ObjMap α) (k k' : String) (v : α)
    (h : k' ≠ k) : jsGet (jsSet l k v) k' = jsGet l k' := by
  have hk : ¬ (k = k') := fun hh => h hh.symm
  induction l with
  | nil => simp [jsSet, jsGet, hk]
  | cons e rest ih =>
    by_cases he : e.1 = k
    · simp [jsSet, jsGet, he, hk]
    · by_cases he' : e.1 = k'
      · simp [jsSet, jsGet, he, he', h]
      · simp [jsSet, jsGet, he, he', ih]

theorem jsGet_jsDelete_self {α : Type} (l : ObjMap α) (k : String) :
    jsGet (jsDelete l k) k = none := by
  induction l with
  | nil => simp [jsDelete, jsGet]
  | cons e rest ih =>
    by_cases h : e.1 = k
    · simp [jsDelete, h, ih]
    · simp [jsDelete, jsGet, h, ih]

theorem jsGet_jsDelete_ne {α : Type} (l : ObjMap α) (k k' : String)
    (h : k' ≠ k) : jsGet (jsDelete l k) k' = jsGet l k' := by
  induction l with
  | nil => simp [jsDelete]
  | cons e rest ih =>
    by_cases he : e.1 = k
    · have hk : ¬ (k = k') := fun hh => h hh.symm
      simp [jsDelete, jsGet, he, hk, ih]
    · simp [jsDelete, jsGet, he, ih]

theorem jsSet_of_jsGet_eq {α : Type} (l : ObjMap α) (k : String) (v : α)
    (h : jsGet l k = some v) : jsSet l k v = l := by
  induction l with
  | nil => simp [jsGet] at h
  | cons e rest ih =>
    by_cases he : e.1 = k
    · simp [jsGet, he] at h
      simp only [jsSet, he, if_pos]
      rw [← h, ← he]
    · simp [jsGet, he] at h
      simp [jsSet, he, ih h]

theorem getPlat_jsSet_self (c : Custom) (p : String)
    (m : ObjMap ActivityTypeDefinition) :
    getPlat (jsSet c p (some m)) p = some m := by
  simp [getPlat, jsGet_jsSet_self]

theorem getPlat_jsSet_ne (c : Custom) (p p' : String)
    (v : Option (ObjMap ActivityTypeDefinition)) (h : p' ≠ p) :
    getPlat (jsSet c p v) p' = getPlat c p' := by
  simp [getPlat, jsGet_jsSet_ne _ _ _ _ h]

theorem jsGet_none_iff {α : Type} (l : ObjMap α) (k : String) :
    jsGet l k = none ↔ ∀ e ∈ l, e.1 ≠ k := by
  induction l with
  | nil => simp [jsGet]
  | cons e rest ih =>
    by_cases he : e.1 = k
    · simp [jsGet, he]
    · simp [jsGet, he, ih]

theorem mem_of_jsGet_eq_some {α : Type} (l : ObjMap α) (k : String) (v : α)
    (h : jsGet l k = some v) : (k, v) ∈ l := by
  induction l with
  | nil => simp [jsGet] at h
  | cons e rest ih =>
    by_cases he : e.1 = k
    · simp [jsGet, he] at h
      have hkv : (k, v) = e := by
        rw [← he, ← h]
      rw [hkv]
      exact List.mem_cons_self e rest
    · simp [jsGet, he] at h
      exact List.mem_cons_of_mem e (ih h)

theorem jsGet_of_mem_nodup {α : Type} (l : ObjMap α) (k : String) (v : α)
    (hWF : WFobj l) (h : (k, v) ∈ l) : jsGet l k = some v := by
  induction l with
  | nil => simp at h
  | cons e rest ih =>
    rcases List.mem_cons.mp h with h1 | h1
    · simp [jsGet, ← h1]
    · have hk : e.1 ≠ k := by
        intro he
        have : e.1 ∈ rest.map Prod.fst := by
          rw [he]
          exact List.mem_map_of_mem Prod.fst h1
        exact (List.nodup_cons.mp hWF).1 this
      simp [jsGet, hk]
      exact ih (List.nodup_cons.mp hWF).2 h1

theorem mem_jsSet_self {α : Type} (l : ObjMap α) (k : String) (v : α) :
    (k, v) ∈ jsSet l k v := by
  induction l with
  | nil => simp [jsSet]
  | cons e rest ih =>
    by_cases he : e.1 = k
    · simp [jsSet, he]
    · simp [jsSet, he]
      right
      exact ih

theorem mem_jsSet_of_nodup {α : Type} (l : ObjMap α) (k : String) (v : α)
    (e : String × α) (hWF : WFobj l) (h : e ∈ jsSet l k v) :
    e = (k, v) ∨ (e ∈ l ∧ e.1 ≠ k) := by
  induction l with
  | nil =>
    simp [jsSet] at h
    left
    exact h
  | cons a rest ih =>
    by_cases ha : a.1 = k
    · rw [jsSet, if_pos ha] at h
      rcases List.mem_cons.mp h with h1 | h1
      · left
        exact h1
      · right
        refine ⟨List.mem_cons_of_mem a h1, ?_⟩
        intro hek
        have : a.1 ∈ rest.map Prod.fst := by
          rw [ha, ← hek]
          exact List.mem_map_of_mem Prod.fst h1
        exact (List.nodup_cons.mp hWF).1 this
    · rw [jsSet, if_neg ha] at h
      rcases List.mem_cons.mp h with h1 | h1
      · right
        rw [h1]
        exact ⟨List.mem_cons_self a rest, ha⟩
      · rcases ih (List.nodup_cons.mp hWF).2 h1 with h2 | h2
        · left
          exact h2
        · right
          exact ⟨List.mem_cons_of_mem a h2.1, h2.2⟩

/-! ## Lemmas on the flattening -/

theorem foldPlatform_get_of_absent (q : String) (m : ObjMap ActivityTypeDefinition)
    (acc : ObjMap (ActivityTypeDefinition × String)) (k : String)
    (h : jsGet m k = none) :
    jsGet (foldPlatform q m acc) k = jsGet acc k := by
  induction m generalizing acc with
  | nil => simp [foldPlatform]
  | cons e rest ih =>
    by_cases he : e.1 = k
    · simp [jsGet, he] at h
    · simp [jsGet, he] at h
      rw [foldPlatform, ih _ h, jsGet_jsSet_ne _ _ _ _ (fun hh => he hh.symm)]

theorem foldPlatform_get_of_present (q : String) (m : ObjMap ActivityTypeDefinition)
    (acc : ObjMap (ActivityTypeDefinition × String)) (k : String)
    (s : ActivityTypeDefinition) (hWF : WFobj m) (h : jsGet m k = some s) :
    jsGet (foldPlatform q m acc) k = some (s, q) := by
  induction m generalizing acc with
  | nil => simp [jsGet] at h
  | cons e rest ih =>
    by_cases he : e.1 = k
    · simp [jsGet, he] at h
      have hrest : jsGet rest k = none := by
        rw [jsGet_none_iff]
        intro e' he'
        intro hk
        have : e.1 ∈ rest.map Prod.fst := by
          rw [he, ← hk]
          exact List.mem_map_of_mem Prod.fst he'
        exact (List.nodup_cons.mp hWF).1 this
      rw [foldPlatform, foldPlatform_get_of_absent _ _ _ _ hrest, he,
        jsGet_jsSet_self, h]
    · simp [jsGet, he] at h
      rw [foldPlatform]
      exact ih _ (List.nodup_cons.mp hWF).2 h

theorem foldPlatform_inversion (q : String) (m : ObjMap ActivityTypeDefinition)
    (acc : ObjMap (ActivityTypeDefinition × String)) (k : String)
    (d : ActivityTypeDefinition) (p : String) (hWF : WFobj m)
    (h : jsGet (foldPlatform q m acc) k = some (d, p)) :
    (q = p ∧ jsGet m k = some d) ∨ (jsGet m k = none ∧ jsGet acc k = some (d, p)) := by
  induction m generalizing acc with
  | nil =>
    right
    exact ⟨rfl, h⟩
  | cons e rest ih =>
    rw [foldPlatform] at h
    rcases ih _ (List.nodup_cons.mp hWF).2 h with h1 | h1
    · left
      refine ⟨h1.1, ?_⟩
      have he : e.1 ≠ k := by
        intro he
        have : jsGet rest k = none := by
          rw [jsGet_none_iff]
          intro e' he' hk
          have : e.1 ∈ rest.map Prod.fst := by
            rw [he, ← hk]
            exact List.mem_map_of_mem Prod.fst he'
          exact (List.nodup_cons.mp hWF).1 this
        rw [this] at h1
        exact Option.noConfusion h1.2
      simp [jsGet, he]
      exact h1.2
    · by_cases he : e.1 = k
      · rw [he, jsGet_jsSet_self] at h1
        have hd : e.2 = d ∧ q = p := by
          have := h1.2
          injection this with hh
          exact ⟨congrArg Prod.fst hh, congrArg Prod.snd hh⟩
        left
        refine ⟨hd.2, ?_⟩
        simp [jsGet, he, hd.1]
      · right
        rw [jsGet_jsSet_ne _ _ _ _ (fun hh => he hh.symm)] at h1
        refine ⟨?_, h1.2⟩
        simp [jsGet, he, h1.1]

/-- The per-entry condition under which flattening a configuration leaves
`k ↦ (s, p)` in place: platform `p` maps `k` to `s`, no other platform maps
`k`. -/
def EntryKeeps (k : String) (s : ActivityTypeDefinition) (p : String)
    (e : String × Option (ObjMap ActivityTypeDefinition)) : Prop :=
  ∀ m, e.2 = some m →
    WFobj m ∧ (e.1 = p → jsGet m k = some s) ∧ (e.1 ≠ p → jsGet m k = none)

theorem unnestFrom_preserve (entries : Custom)
    (acc : ObjMap (ActivityTypeDefinition × String)) (k : String)
    (s : ActivityTypeDefinition) (p : String)
    (hacc : jsGet acc k = some (s, p))
    (hent : ∀ e ∈ entries, EntryKeeps k s p e) :
    jsGet (unnestFrom entries acc) k = some (s, p) := by
  induction entries generalizing acc with
  | nil => exact hacc
  | cons e rest ih =>
    rw [unnestFrom]
    match he : e.2 with
    | none =>
      exact ih acc hacc (fun e' he' => hent e' (List.mem_cons_of_mem e he'))
    | some m =>
      have hP := hent e (List.mem_cons_self e rest) m he
      have hnext : jsGet (foldPlatform e.1 m acc) k = some (s, p) := by
        by_cases hp : e.1 = p
        · rw [← hp] at hacc ⊢
          exact foldPlatform_get_of_present _ _ _ _ _ hP.1 (hP.2.1 hp)
        · rw [foldPlatform_get_of_absent _ _ _ _ (hP.2.2 hp)]
          exact hacc
      exact ih _ hnext (fun e' he' => hent e' (List.mem_cons_of_mem e he'))

theorem unnestFrom_hit (entries : Custom)
    (acc : ObjMap (ActivityTypeDefinition × String)) (k : String)
    (s : ActivityTypeDefinition) (p : String)
    (m0 : ObjMap ActivityTypeDefinition) (hm : (p, some m0) ∈ entries)
    (hent : ∀ e ∈ entries, EntryKeeps k s p e) :
    jsGet (unnestFrom entries acc) k = some (s, p) := by
  induction entries generalizing acc with
  | nil => simp at hm
  | cons e rest ih =>
    rw [unnestFrom]
    match he : e.2 with
    | none =>
      rcases List.mem_cons.mp hm with h1 | h1
      · rw [← h1] at he
        simp at he
      · exact ih _ h1 (fun e' he' => hent e' (List.mem_cons_of_mem e he'))
    | some m =>
      rcases List.mem_cons.mp hm with h1 | h1
      · have he1 : e.1 = p := by rw [← h1]
        have hP := hent e (List.mem_cons_self e rest) m he
        have hnext : jsGet (foldPlatform e.1 m acc) k = some (s, p) := by
          rw [← he1]
          exact foldPlatform_get_of_present _ _ _ _ _ hP.1 (hP.2.1 he1)
        exact unnestFrom_preserve rest _ k s p hnext
          (fun e' he' => hent e' (List.mem_cons_of_mem e he'))
      · exact ih _ h1 (fun e' he' => hent e' (List.mem_cons_of_mem e he'))

theorem unnestFrom_inversion (entries : Custom)
    (acc : ObjMap (ActivityTypeDefinition × String)) (k : String)
    (d : ActivityTypeDefinition) (p : String)
    (hWF : ∀ e ∈ entries, ∀ m, e.2 = some m → WFobj m)
    (h : jsGet (unnestFrom entries acc) k = some (d, p)) :
    (∃ m, (p, some m) ∈ entries ∧ jsGet m k = some d) ∨ jsGet acc k = some (d, p) := by
  induction entries generalizing acc with
  | nil =>
    right
    exact h
  | cons e rest ih =>
    rw [unnestFrom] at h
    match he : e.2 with
    | none =>
      rw [he] at h
      rcases ih _ (fun e' he' => hWF e' (List.mem_cons_of_mem e he')) h with h1 | h1
      · rcases h1 with ⟨m, hm, hget⟩
        exact Or.inl ⟨m, List.mem_cons_of_mem e hm, hget⟩
      · right
        exact h1
    | some m =>
      rw [he] at h
      rcases ih _ (fun e' he' => hWF e' (List.mem_cons_of_mem e he')) h with h1 | h1
      · rcases h1 with ⟨m', hm', hget⟩
        exact Or.inl ⟨m', List.mem_cons_of_mem e hm', hget⟩
      · rcases foldPlatform_inversion e.1 m acc k d p
            (hWF e (List.mem_cons_self e rest) m he) h1 with h2 | h2
        · left
          refine ⟨m, ?_, h2.2⟩
          have : e = (p, some m) := by
            rw [← h2.1, ← he]
          rw [← this]
          exact List.mem_cons_self e rest
        · right
          exact h2.2

/-- The flattened view attributes key `k` to platform `p` only if the nested
configuration maps `k` under `p` to the same definition. -/
theorem unnest_lookup (c : Custom) (k : String) (d : ActivityTypeDefinition)
    (p : String) (hWF : WFcustom c)
    (h : jsGet (unnestActivityTypes c) k = some (d, p)) :
    ∃ m, getPlat c p = some m ∧ jsGet m k = some d := by
  rcases unnestFrom_inversion c [] k d p
      (fun e he m hm => hWF.2 e he m hm) h with h1 | h1
  · rcases h1 with ⟨m, hm, hget⟩
    refine ⟨m, ?_, hget⟩
    have : jsGet c p = some (some m) := jsGet_of_mem_nodup c p (some m) hWF.1 hm
    rw [getPlat, this]
  · simp [jsGet] at h1

/-! ## Lemmas on the segment store -/

theorem find?_append_of_none {α : Type} (l l' : List α) (p : α → Bool)
    (h : l.find? p = none) : (l ++ l').find? p = l'.find? p := by
  induction l with
  | nil => simp
  | cons a rest ih =>
    by_cases ha : p a
    · rw [List.find?_cons_of_pos _ ha] at h
      exact Option.noConfusion h
    · rw [List.find?_cons_of_neg _ ha] at h
      rw [List.cons_append, List.find?_cons_of_neg _ ha]
      exact ih h

theorem find?_eq_none_of_all {α : Type} (l : List α) (p : α → Bool)
    (h : ∀ a ∈ l, p a = false) : l.find? p = none := by
  induction l with
  | nil => simp
  | cons a rest ih =>
    rw [List.find?_cons_of_neg _ (by simp [h a (List.mem_cons_self a rest)])]
    exact ih (fun a' ha' => h a' (List.mem_cons_of_mem a ha'))

/-- Appended fresh rows are found by id once the existing rows cannot match. -/
theorem findById_append (segs tail : List Segment) (n id : Nat)
    (h : ∀ s ∈ segs, s.id ≠ id) :
    findById ⟨segs ++ tail, n⟩ id = tail.find? (fun s => decide (s.id = id)) := by
  rw [findById]
  exact find?_append_of_none _ _ _
    (find?_eq_none_of_all _ _ (fun s hs => by simp [h s hs]))

theorem findById_mapSegs (f : Segment → Segment) (db : DB) (id : Nat)
    (hf : ∀ s, (f s).id = s.id) :
    findById (mapSegs f db) id = (findById db id).map f := by
  rw [findById, mapSegs, findById]
  induction db.segments with
  | nil => simp
  | cons a rest ih =>
    by_cases ha : a.id = id
    · rw [List.map_cons, List.find?_cons_of_pos _ (by simp [hf, ha]),
        List.find?_cons_of_pos _ (by simp [ha])]
      simp
    · rw [List.map_cons, List.find?_cons_of_neg _ (by simp [hf, ha]),
        List.find?_cons_of_neg _ (by simp [ha])]
      exact ih

theorem find?_id_of_mem_nodup (l : List Segment) (s : Segment)
    (hnd : (l.map Segment.id).Nodup) (h : s ∈ l) :
    l.find? (fun x => decide (x.id = s.id)) = some s := by
  induction l with
  | nil => simp at h
  | cons a rest ih =>
    rcases List.mem_cons.mp h with h1 | h1
    · rw [h1]
      exact List.find?_cons_of_pos _ (by simp)
    · have ha : a.id ≠ s.id := by
        intro he
        have : a.id ∈ rest.map Segment.id := by
          rw [he]
          exact List.mem_map_of_mem Segment.id h1
        exact (List.nodup_cons.mp hnd).1 this
      rw [List.find?_cons_of_neg _ (by simp [ha])]
      exact ih (List.nodup_cons.mp hnd).2 h1

/-- In a store with distinct ids, every row is found by its own id. -/
theorem findById_of_mem_nodup (db : DB) (s : Segment)
    (hnd : (db.segments.map Segment.id).Nodup) (h : s ∈ db.segments) :
    findById db s.id = some s :=
  find?_id_of_mem_nodup db.segments s hnd h

/-! ## The claims -/

/-- Claim C1: for every valid input with no parentSlug and no
grandparentSlug, createProjectGroup creates exactly three segments — the
group itself, a PROJECT counterpart whose parentSlug and parentName equal
the group slug and name (other fields copied from the input), and a
SUBPROJECT counterpart whose parentSlug, grandparentSlug, parentName and
grandparentName all equal the group slug/name — and returns the group
re-read by its id. -/
theorem claim_C1 (db : DB) (data : SegmentData) (hWF : WFdb db)
    (hps : data.parentSlug = none) (hgs : data.grandparentSlug = none)
    (hslug : data.slug ≠ "")
    (hfresh : ∀ s ∈ db.segments, s.data.slug ≠ data.slug) :
    createProjectGroup noFaults db data =
      (.ok (some ⟨db.nextId, .PROJECT_GROUP, none, data⟩),
       ⟨db.segments ++
          [⟨db.nextId, .PROJECT_GROUP, none, data⟩,
           ⟨db.nextId + 1, .PROJECT, some db.nextId,
             { data with parentSlug := some data.slug, parentName := some data.name }⟩,
           ⟨db.nextId + 2, .SUBPROJECT, some (db.nextId + 1),
             { data with parentSlug := some data.slug, grandparentSlug := some data.slug,
                         parentName := some data.name,
                         grandparentName := some data.name }⟩],
        db.nextId + 3⟩,
       .committed) := by
  have h0 : repoCreate noFaults 0 db data =
      .ok (⟨db.nextId, .PROJECT_GROUP, none, data⟩,
        ⟨db.segments ++ [⟨db.nextId, .PROJECT_GROUP, none, data⟩], db.nextId + 1⟩) := by
    simp [repoCreate, noFaults, deriveLevel, truthy, hps, hgs, resolveParent]
  have hfsl1 : findSlugLevel
      ⟨db.segments ++ [⟨db.nextId, .PROJECT_GROUP, none, data⟩], db.nextId + 1⟩
      data.slug .PROJECT_GROUP = some ⟨db.nextId, .PROJECT_GROUP, none, data⟩ := by
    rw [findSlugLevel]
    show (db.segments ++ [(⟨db.nextId, .PROJECT_GROUP, none, data⟩ : Segment)]).find? _ = _
    rw [find?_append_of_none _ _ _
      (find?_eq_none_of_all _ _ (fun s hs => by simp [hfresh s hs]))]
    simp
  have h1 : repoCreate noFaults 1
      ⟨db.segments ++ [⟨db.nextId, .PROJECT_GROUP, none, data⟩], db.nextId + 1⟩
      { data with parentSlug := some data.slug, parentName := some data.name } =
      .ok (⟨db.nextId + 1, .PROJECT, some db.nextId,
              { data with parentSlug := some data.slug, parentName := some data.name }⟩,
        ⟨db.segments ++
          [⟨db.nextId, .PROJECT_GROUP, none, data⟩,
           ⟨db.nextId + 1, .PROJECT, some db.nextId,
              { data with parentSlug := some data.slug, parentName := some data.name }⟩],
          db.nextId + 2⟩) := by
    simp [repoCreate, noFaults, deriveLevel, truthy, hgs, hslug, resolveParent, hfsl1]
  have hfsl2 : findSlugLevel
      ⟨db.segments ++
        [⟨db.nextId, .PROJECT_GROUP, none, data⟩,
         ⟨db.nextId + 1, .PROJECT, some db.nextId,
            { data with parentSlug := some data.slug, parentName := some data.name }⟩],
        db.nextId + 2⟩ data.slug .PROJECT =
      some ⟨db.nextId + 1, .PROJECT, some db.nextId,
        { data with parentSlug := some data.slug, parentName := some data.name }⟩ := by
    rw [findSlugLevel]
    show (db.segments ++ _).find? _ = _
    rw [find?_append_of_none _ _ _
      (find?_eq_none_of_all _ _ (fun s hs => by simp [hfresh s hs]))]
    rw [List.find?_cons_of_neg _ (by simp)]
    simp
  have h2 : repoCreate noFaults 2
      ⟨db.segments ++
        [⟨db.nextId, .PROJECT_GROUP, none, data⟩,
         ⟨db.nextId + 1, .PROJECT, some db.nextId,
            { data with parentSlug := some data.slug, parentName := some data.name }⟩],
        db.nextId + 2⟩
      { data with parentSlug := some data.slug, grandparentSlug := some data.slug,
                  parentName := some data.name, grandparentName := some data.name } =
      .ok (⟨db.nextId + 2, .SUBPROJECT, some (db.nextId + 1),
              { data with parentSlug := some data.slug, grandparentSlug := some data.slug,
                          parentName := some data.name, grandparentName := some data.name }⟩,
        ⟨db.segments ++
          [⟨db.nextId, .PROJECT_GROUP, none, data⟩,
           ⟨db.nextId + 1, .PROJECT, some db.nextId,
              { data with parentSlug := some data.slug, parentName := some data.name }⟩,
           ⟨db.nextId + 2, .SUBPROJECT, some (db.nextId + 1),
              { data with parentSlug := some data.slug, grandparentSlug := some data.slug,
                          parentName := some data.name, grandparentName := some data.name }⟩],
          db.nextId + 3⟩) := by
    simp [repoCreate, noFaults, deriveLevel, truthy, hslug, resolveParent, hfsl2]
  have hre : findById
      ⟨db.segments ++
        [⟨db.nextId, .PROJECT_GROUP, none, data⟩,
         ⟨db.nextId + 1, .PROJECT, some db.nextId,
            { data with parentSlug := some data.slug, parentName := some data.name }⟩,
         ⟨db.nextId + 2, .SUBPROJECT, some (db.nextId + 1),
            { data with parentSlug := some data.slug, grandparentSlug := some data.slug,
                        parentName := some data.name, grandparentName := some data.name }⟩],
        db.nextId + 3⟩ db.nextId = some ⟨db.nextId, .PROJECT_GROUP, none, data⟩ := by
    rw [findById_append db.segments _ _ _
      (fun s hs => Nat.ne_of_lt (hWF.2 s hs))]
    rw [List.find?_cons_of_pos _ (by simp)]
  rw [createProjectGroup, if_neg (by simp [hps, hgs, truthy])]
  simp only [h0, h1, h2]
  simp only [hre]

/-- Witness for C1: creating the group "Acme"/"acme" on an empty store
yields exactly the three cascade rows and returns the re-read group. -/
theorem claim_C1_witness :
    createProjectGroup noFaults ⟨[], 0⟩ ⟨"Acme", "acme", none, none, none, none⟩ =
      (.ok (some ⟨0, .PROJECT_GROUP, none, ⟨"Acme", "acme", none, none, none, none⟩⟩),
       ⟨[⟨0, .PROJECT_GROUP, none, ⟨"Acme", "acme", none, none, none, none⟩⟩,
         ⟨1, .PROJECT, some 0, ⟨"Acme", "acme", some "acme", some "Acme", none, none⟩⟩,
         ⟨2, .SUBPROJECT, some 1,
           ⟨"Acme", "acme", some "acme", some "Acme", some "acme", some "Acme"⟩⟩],
        3⟩,
       .committed) := by
  have h := claim_C1 ⟨[], 0⟩ ⟨"Acme", "acme", none, none, none, none⟩
    (by simp [WFdb]) rfl rfl (by decide) (by simp)
  exact h

/-- Shared helper: createProject with an absent parent group throws the
reference error with the transaction left open and the store unchanged. -/
theorem createProject_missing_parent (db : DB) (data : SegmentData) (ps : String)
    (hgs : truthy data.grandparentSlug = false)
    (hps : data.parentSlug = some ps) (hne : ps ≠ "")
    (hmiss : findSlugLevel db ps .PROJECT_GROUP = none) :
    createProject noFaults db data =
      (.error (.projectGroupNotExists data.parentName), db, .leaked) := by
  rw [createProject, if_neg (by simp [hgs]), if_neg (by simp [hps, truthy, hne])]
  have hf : repoFindBySlug noFaults 0 db (data.parentSlug.getD "") .PROJECT_GROUP
      = .ok none := by
    simp [repoFindBySlug, noFaults, hps, hmiss]
  simp only [hf]

/-- Shared helper: a fault injected into either create call of
createProject (the parent group being present) rolls back, re-throws the
error unmodified, and leaves the store unchanged. -/
theorem createProject_create_faults (db : DB) (data : SegmentData) (ps : String)
    (q : Segment) (hgs : truthy data.grandparentSlug = false)
    (hps : data.parentSlug = some ps) (hne : ps ≠ "")
    (hfound : findSlugLevel db ps .PROJECT_GROUP = some q) :
    createProject (faultOnly 1) db data = (.error (.repo 1), db, .rolledBack) ∧
    createProject (faultOnly 2) db data = (.error (.repo 2), db, .rolledBack) := by
  constructor
  · rw [createProject, if_neg (by simp [hgs]), if_neg (by simp [hps, truthy, hne])]
    have hf : repoFindBySlug (faultOnly 1) 0 db (data.parentSlug.getD "") .PROJECT_GROUP
        = .ok (some q) := by
      simp [repoFindBySlug, faultOnly, hps, hfound]
    simp only [hf]
    have hc : repoCreate (faultOnly 1) 1 db data = .error (.repo 1) := by
      simp [repoCreate, faultOnly]
    simp only [hc]
  · rw [createProject, if_neg (by simp [hgs]), if_neg (by simp [hps, truthy, hne])]
    have hf : repoFindBySlug (faultOnly 2) 0 db (data.parentSlug.getD "") .PROJECT_GROUP
        = .ok (some q) := by
      simp [repoFindBySlug, faultOnly, hps, hfound]
    simp only [hf]
    have hc1 : repoCreate (faultOnly 2) 1 db data =
        .ok (⟨db.nextId, deriveLevel data, resolveParent db data (deriveLevel data), data⟩,
          ⟨db.segments ++
            [⟨db.nextId, deriveLevel data, resolveParent db data (deriveLevel data), data⟩],
            db.nextId + 1⟩) := by
      simp [repoCreate, faultOnly]
    simp only [hc1]
    have hc2 : repoCreate (faultOnly 2) 2
        (⟨db.segments ++
          [⟨db.nextId, deriveLevel data, resolveParent db data (deriveLevel data), data⟩],
          db.nextId + 1⟩ : DB)
        { data with parentSlug := some data.slug, grandparentSlug := data.parentSlug,
                    parentName := some data.name } = .error (.repo 2) := by
      simp [repoCreate, faultOnly]
    simp only [hc2]

/-- Claim C5: for every createProject input whose parentSlug names no
existing PROJECT_GROUP, the call looks the parent up before any write is
attempted, rejects with the error naming the missing group (the parentName
of the input is interpolated into the message), and persists zero segments:
the store is unchanged. -/
theorem claim_C5 (db : DB) (data : SegmentData) (ps : String)
    (hgs : truthy data.grandparentSlug = false)
    (hps : data.parentSlug = some ps) (hne : ps ≠ "")
    (hmiss : findSlugLevel db ps .PROJECT_GROUP = none) :
    createProject noFaults db data =
      (.error (.projectGroupNotExists data.parentName), db, .leaked) :=
  createProject_missing_parent db data ps hgs hps hne hmiss

/-- Witness for C5: creating project "p" under the absent group "g" on the
empty store yields the reference error carrying the given parent name and
leaves the store empty. -/
theorem claim_C5_witness :
    createProject noFaults ⟨[], 0⟩ ⟨"P", "p", some "g", some "G", none, none⟩ =
      (.error (.projectGroupNotExists (some "G")), ⟨[], 0⟩, .leaked) :=
  claim_C5 ⟨[], 0⟩ ⟨"P", "p", some "g", some "G", none, none⟩ "g" rfl rfl
    (by decide) rfl

/-- Claim C10: in createProject the transaction is created before the
parent-group lookup; when the lookup returns null, the error is thrown with
that transaction neither committed nor rolled back (it leaks), and only
failures of the two subsequent create calls trigger a rollback. -/
theorem claim_C10 (db : DB) (data : SegmentData) (ps : String)
    (hgs : truthy data.grandparentSlug = false)
    (hps : data.parentSlug = some ps) (hne : ps ≠ "") :
    (findSlugLevel db ps .PROJECT_GROUP = none →
      createProject noFaults db data =
        (.error (.projectGroupNotExists data.parentName), db, .leaked)) ∧
    (∀ q : Segment, findSlugLevel db ps .PROJECT_GROUP = some q →
      createProject (faultOnly 1) db data = (.error (.repo 1), db, .rolledBack) ∧
      createProject (faultOnly 2) db data = (.error (.repo 2), db, .rolledBack)) := by
  constructor
  · intro hmiss
    exact createProject_missing_parent db data ps hgs hps hne hmiss
  · intro q hfound
    exact createProject_create_faults db data ps q hgs hps hne hfound

/-- Witness for C10: with the group "g" present, a fault injected into the
first create call of createProject rolls the transaction back and leaves
the store unchanged. -/
theorem claim_C10_witness :
    createProject (faultOnly 1)
        ⟨[⟨0, .PROJECT_GROUP, none, ⟨"G", "g", none, none, none, none⟩⟩], 1⟩
        ⟨"P", "p", some "g", some "G", none, none⟩ =
      (.error (.repo 1),
       ⟨[⟨0, .PROJECT_GROUP, none, ⟨"G", "g", none, none, none, none⟩⟩], 1⟩,
       .rolledBack) :=
  ((claim_C10 ⟨[⟨0, .PROJECT_GROUP, none, ⟨"G", "g", none, none, none, none⟩⟩], 1⟩
      ⟨"P", "p", some "g", some "G", none, none⟩ "g" rfl rfl (by decide)).2
    ⟨0, .PROJECT_GROUP, none, ⟨"G", "g", none, none, none, none⟩⟩ rfl).1

/-- Counterexample to C2 as stated: the parent lookup of createProject is a
repository call made inside the open transaction, yet when it throws the
operation re-throws without rolling back — the transaction is left open,
not rolled back. -/
theorem claim_C2_counterexample :
    createProject (faultOnly 0) ⟨[], 0⟩ ⟨"P", "p", some "g", none, none, none⟩ =
      (.error (.repo 0), ⟨[], 0⟩, .leaked) ∧
    TxnDisposition.leaked ≠ TxnDisposition.rolledBack := by
  exact ⟨rfl, by decide⟩

/-- Claim C2 (amended): for every repository call inside the try/catch
region of a cascade operation — all three creates of createProjectGroup,
the row update and the children bulk update of update, and the two creates
of createProject — a thrown error rolls the transaction back and is
re-thrown unmodified, leaving the store exactly as before the call, so no
subset of the writes of the cascade is committed. The parent lookup of
createProject, although it runs inside the open transaction, sits before
the try block: its failure also re-throws unmodified and commits nothing,
but leaks the transaction instead of rolling it back. -/
theorem claim_C2_amended :
    (∀ (db : DB) (data : SegmentData) (i : Nat), i < 3 →
      truthy data.parentSlug = false → truthy data.grandparentSlug = false →
      createProjectGroup (faultOnly i) db data =
        (.error (.repo i), db, .rolledBack)) ∧
    (∀ (db : DB) (id : Nat) (data : SegmentUpdateData) (seg : Segment),
      findById db id = some seg →
      update (faultOnly 0) db id data = (.error (.repo 0), db, .rolledBack)) ∧
    (∀ (db : DB) (id : Nat) (data : SegmentUpdateData) (seg : Segment),
      findById db id = some seg →
      (!isSubproject seg && (truthy data.name || truthy data.slug)) = true →
      update (faultOnly 1) db id data = (.error (.repo 1), db, .rolledBack)) ∧
    (∀ (db : DB) (data : SegmentData) (ps : String) (q : Segment),
      truthy data.grandparentSlug = false → data.parentSlug = some ps → ps ≠ "" →
      findSlugLevel db ps .PROJECT_GROUP = some q →
      createProject (faultOnly 1) db data = (.error (.repo 1), db, .rolledBack) ∧
      createProject (faultOnly 2) db data = (.error (.repo 2), db, .rolledBack)) ∧
    (∀ (db : DB) (data : SegmentData) (ps : String),
      truthy data.grandparentSlug = false → data.parentSlug = some ps → ps ≠ "" →
      createProject (faultOnly 0) db data = (.error (.repo 0), db, .leaked)) := by
  refine ⟨?_, ?_, ?_, ?_, ?_⟩
  · intro db data i hi hps hgs
    rw [createProjectGroup, if_neg (by simp [hps, hgs])]
    interval_cases i
    · have h : repoCreate (faultOnly 0) 0 db data = .error (.repo 0) := by
        simp [repoCreate, faultOnly]
      simp only [h]
    · have h0 : repoCreate (faultOnly 1) 0 db data =
          .ok (⟨db.nextId, deriveLevel data, resolveParent db data (deriveLevel data), data⟩,
            ⟨db.segments ++
              [⟨db.nextId, deriveLevel data, resolveParent db data (deriveLevel data), data⟩],
              db.nextId + 1⟩) := by
        simp [repoCreate, faultOnly]
      simp only [h0]
      have h1 : ∀ (db1 : DB) (d : SegmentData),
          repoCreate (faultOnly 1) 1 db1 d = .error (.repo 1) := by
        intro db1 d
        simp [repoCreate, faultOnly]
      simp only [h1]
    · have ha : ∀ (db1 : DB) (d : SegmentData),
          repoCreate (faultOnly 2) 0 db1 d =
          .ok (⟨db1.nextId, deriveLevel d, resolveParent db1 d (deriveLevel d), d⟩,
            ⟨db1.segments ++
              [⟨db1.nextId, deriveLevel d, resolveParent db1 d (deriveLevel d), d⟩],
              db1.nextId + 1⟩) := by
        intro db1 d
        simp [repoCreate, faultOnly]
      have hb : ∀ (db1 : DB) (d : SegmentData),
          repoCreate (faultOnly 2) 1 db1 d =
          .ok (⟨db1.nextId, deriveLevel d, resolveParent db1 d (deriveLevel d), d⟩,
            ⟨db1.segments ++
              [⟨db1.nextId, deriveLevel d, resolveParent db1 d (deriveLevel d), d⟩],
              db1.nextId + 1⟩) := by
        intro db1 d
        simp [repoCreate, faultOnly]
      have h2 : ∀ (db2 : DB) (d : SegmentData),
          repoCreate (faultOnly 2) 2 db2 d = .error (.repo 2) := by
        intro db2 d
        simp [repoCreate, faultOnly]
      simp only [ha, hb, h2]
  · intro db id data seg hfind
    rw [update, hfind]
    have h : repoUpdate (faultOnly 0) 0 db id data = .error (.repo 0) := by
      simp [repoUpdate, faultOnly]
    simp only [h]
  · intro db id data seg hfind hcond
    rw [update, hfind]
    have h0 : repoUpdate (faultOnly 1) 0 db id data =
        .ok (mapSegs (fun s => if s.id = id then applyUpdate s data else s) db) := by
      simp [repoUpdate, faultOnly]
    simp only [h0, hcond, if_true]
    have h1 : ∀ db1 : DB, repoChildrenBulk (faultOnly 1) 1 db1 seg.id data.name data.slug
        = .error (.repo 1) := by
      intro db1
      simp [repoChildrenBulk, faultOnly]
    simp only [h1]
  · intro db data ps q hgs hps hne hfound
    exact createProject_create_faults db data ps q hgs hps hne hfound
  · intro db data ps hgs hps hne
    rw [createProject, if_neg (by simp [hgs]), if_neg (by simp [hps, truthy, hne])]
    have hf : repoFindBySlug (faultOnly 0) 0 db (data.parentSlug.getD "") .PROJECT_GROUP
        = .error (.repo 0) := by
      simp [repoFindBySlug, faultOnly]
    simp only [hf]

/-- Witness for C2: a fault injected into the second create of
createProjectGroup on an empty store rolls back, leaving the store
unchanged and re-throwing the injected error. -/
theorem claim_C2_witness :
    createProjectGroup (faultOnly 1) ⟨[], 5⟩ ⟨"Acme", "acme", none, none, none, none⟩ =
      (.error (.repo 1), ⟨[], 5⟩, .rolledBack) :=
  claim_C2_amended.1 ⟨[], 5⟩ ⟨"Acme", "acme", none, none, none, none⟩ 1
    (by decide) rfl rfl

/-- Counterexample to C4 as stated: updating a PROJECT_GROUP with
`name = ""` changes its name (from "A" to the empty string) but, the empty
string being falsy, no child update happens — the denormalized
parentName stays "A". The propagation condition is JS truthiness of the
provided fields, not "changed". -/
theorem claim_C4_counterexample :
    update noFaults
        ⟨[⟨0, .PROJECT_GROUP, none, ⟨"A", "a", none, none, none, none⟩⟩,
          ⟨1, .PROJECT, some 0, ⟨"A", "a", some "a", some "A", none, none⟩⟩], 2⟩
        0 ⟨some "", none⟩ =
      (.ok (some ⟨0, .PROJECT_GROUP, none, ⟨"", "a", none, none, none, none⟩⟩),
       ⟨[⟨0, .PROJECT_GROUP, none, ⟨"", "a", none, none, none, none⟩⟩,
         ⟨1, .PROJECT, some 0, ⟨"A", "a", some "a", some "A", none, none⟩⟩], 2⟩,
       .committed) ∧
    (some "" : Option String) ≠ some "A" :=
  ⟨rfl, by decide⟩

/-- Claim C4 (amended): update propagates to children exactly when the
segment is not a SUBPROJECT and name or slug is provided truthy (non-empty)
in the payload — not when they "changed": a truthy provided value equal to
the old one still propagates, and an update that sets name or slug to the
empty string does not. When it propagates, the provided fields are written
to the denormalized parent fields of every direct child in one bulk update
keyed by the parent id; rows that are not children of the segment are
untouched. When the segment is a SUBPROJECT, or neither field is provided
truthy, every row except the updated segment is untouched. -/
theorem claim_C4_amended (db : DB) (id : Nat) (data : SegmentUpdateData)
    (seg : Segment) (hnd : (db.segments.map Segment.id).Nodup)
    (hfind : findById db id = some seg) :
    (isSubproject seg = false → (truthy data.name || truthy data.slug) = true →
      (update noFaults db id data).2.2 = .committed ∧
      (∀ c ∈ db.segments, c.parentId = some seg.id → c.id ≠ id →
        findById (update noFaults db id data).2.1 c.id =
          some { c with data := { c.data with
            parentName := match data.name with
              | none => c.data.parentName
              | some n => some n
            parentSlug := match data.slug with
              | none => c.data.parentSlug
              | some sl => some sl } }) ∧
      (∀ c ∈ db.segments, c.parentId ≠ some seg.id → c.id ≠ id →
        findById (update noFaults db id data).2.1 c.id = some c)) ∧
    ((isSubproject seg = true ∨ (truthy data.name || truthy data.slug) = false) →
      (update noFaults db id data).2.2 = .committed ∧
      ∀ s ∈ db.segments, s.id ≠ id →
        findById (update noFaults db id data).2.1 s.id = some s) := by
  have hidu : ∀ s : Segment,
      ((fun s => if s.id = id then applyUpdate s data else s) s).id = s.id := by
    intro s
    by_cases h : s.id = id <;> simp [h, applyUpdate]
  have hidb : ∀ s : Segment, (bulkApply data.name data.slug seg.id s).id = s.id := by
    intro s
    rw [bulkApply.eq_def]
    split <;> rfl
  have hupd : repoUpdate noFaults 0 db id data =
      .ok (mapSegs (fun s => if s.id = id then applyUpdate s data else s) db) := by
    simp [repoUpdate, noFaults]
  constructor
  · intro hsub hcond
    have hcondb : (!isSubproject seg && (truthy data.name || truthy data.slug)) = true := by
      rw [hsub, hcond]
      rfl
    have hbulk : repoChildrenBulk noFaults 1
        (mapSegs (fun s => if s.id = id then applyUpdate s data else s) db)
        seg.id data.name data.slug =
        .ok (mapSegs (bulkApply data.name data.slug seg.id)
          (mapSegs (fun s => if s.id = id then applyUpdate s data else s) db)) := by
      simp [repoChildrenBulk, noFaults]
    rw [update, hfind]
    simp only [hupd, hcondb, if_true, hbulk]
    refine ⟨by trivial, ?_, ?_⟩
    · intro c hc hcp hcid
      show findById (mapSegs (bulkApply data.name data.slug seg.id)
        (mapSegs (fun s => if s.id = id then applyUpdate s data else s) db)) c.id = _
      rw [findById_mapSegs _ _ _ hidb, findById_mapSegs _ _ _ hidu,
        findById_of_mem_nodup db c hnd hc]
      simp only [Option.map_some']
      rw [if_neg hcid, bulkApply.eq_def, if_pos hcp]
    · intro c hc hcp hcid
      show findById (mapSegs (bulkApply data.name data.slug seg.id)
        (mapSegs (fun s => if s.id = id then applyUpdate s data else s) db)) c.id = _
      rw [findById_mapSegs _ _ _ hidb, findById_mapSegs _ _ _ hidu,
        findById_of_mem_nodup db c hnd hc]
      simp only [Option.map_some']
      rw [if_neg hcid, bulkApply.eq_def, if_neg hcp]
  · intro hdisj
    have hcondb : (!isSubproject seg && (truthy data.name || truthy data.slug)) = false := by
      rcases hdisj with h | h
      · rw [h]
        rfl
      · rw [h]
        simp
    rw [update, hfind]
    simp only [hupd, hcondb, Bool.false_eq_true, if_false]
    refine ⟨by trivial, ?_⟩
    intro s hs hsid
    show findById (mapSegs (fun s => if s.id = id then applyUpdate s data else s) db) s.id = _
    rw [findById_mapSegs _ _ _ hidu, findById_of_mem_nodup db s hnd hs]
    simp only [Option.map_some']
    rw [if_neg hsid]

/-- Witness for C4: renaming the group "a" to name "B", slug "b" refreshes
the denormalized parent fields of the child. -/
theorem claim_C4_witness :
    (update noFaults
        ⟨[⟨0, .PROJECT_GROUP, none, ⟨"A", "a", none, none, none, none⟩⟩,
          ⟨1, .PROJECT, some 0, ⟨"A", "a", some "a", some "A", none, none⟩⟩], 2⟩
        0 ⟨some "B", some "b"⟩).2.2 = .committed ∧
    findById (update noFaults
        ⟨[⟨0, .PROJECT_GROUP, none, ⟨"A", "a", none, none, none, none⟩⟩,
          ⟨1, .PROJECT, some 0, ⟨"A", "a", some "a", some "A", none, none⟩⟩], 2⟩
        0 ⟨some "B", some "b"⟩).2.1 1 =
      some ⟨1, .PROJECT, some 0, ⟨"A", "a", some "b", some "B", none, none⟩⟩ := by
  have h := (claim_C4_amended
    ⟨[⟨0, .PROJECT_GROUP, none, ⟨"A", "a", none, none, none, none⟩⟩,
      ⟨1, .PROJECT, some 0, ⟨"A", "a", some "a", some "A", none, none⟩⟩], 2⟩
    0 ⟨some "B", some "b"⟩
    ⟨0, .PROJECT_GROUP, none, ⟨"A", "a", none, none, none, none⟩⟩
    (by simp) rfl).1 rfl rfl
  refine ⟨h.1, ?_⟩
  have h2 := h.2.1 ⟨1, .PROJECT, some 0, ⟨"A", "a", some "a", some "A", none, none⟩⟩
    (by simp) rfl (by decide)
  exact h2

/-- Claim C6: createActivityType on an already-existing (type, platform)
pair and destroyActivityType on an absent key are idempotent no-ops: no
error, no write (the boolean is false), configuration returned unchanged; in
particular, after any successful create, repeating the same create returns
the same configuration with no write. -/
theorem claim_C6 (c : Custom) (type platform : String) (htype : type ≠ "") :
    (∀ (c' : Custom) (w : Bool), createActivityType c type platform = .ok (c', w) →
      createActivityType c' type platform = .ok (c', false)) ∧
    (∀ k : String, jsGet (unnestActivityTypes c) k = none →
      destroyActivityType c k = (c, false)) := by
  constructor
  · intro c' w h
    simp only [createActivityType, if_neg htype] at h ⊢
    split at h
    next m hp =>
      split at h
      next hk =>
        simp only [Except.ok.injEq, Prod.mk.injEq] at h
        obtain ⟨hc, hw⟩ := h
        subst hc
        rw [hp]
        simp [hk]
      next hk =>
        simp only [Except.ok.injEq, Prod.mk.injEq] at h
        obtain ⟨hc, hw⟩ := h
        subst hc
        rw [getPlat_jsSet_self]
        simp [jsGet_jsSet_self]
    next hp =>
      simp only [Except.ok.injEq, Prod.mk.injEq] at h
      obtain ⟨hc, hw⟩ := h
      subst hc
      rw [getPlat_jsSet_self]
      simp [jsGet_jsSet_self]
  · intro k hk
    simp [destroyActivityType, hk]

/-- Witness for C6: re-creating ("star", "github") on a configuration that
already holds it is a no-op with no write, and destroying the absent key
"x" on the empty configuration is a no-op with no write. -/
theorem claim_C6_witness :
    createActivityType [("github", some [("star", defaultDefinition "star")])]
        "star" "github" =
      .ok ([("github", some [("star", defaultDefinition "star")])], false) ∧
    destroyActivityType [("github", some [("star", defaultDefinition "star")])] "x" =
      ([("github", some [("star", defaultDefinition "star")])], false) := by
  constructor
  · exact (claim_C6 [("github", some [("star", defaultDefinition "star")])]
      "star" "github" (by decide)).1
      [("github", some [("star", defaultDefinition "star")])] false (by decide)
  · exact (claim_C6 [("github", some [("star", defaultDefinition "star")])]
      "star" "github" (by decide)).2 "x" (by decide)

/-- Counterexample to C3 as stated: creating "star" under "github" and then
"star" under "discord" succeeds twice — the same typeKey ends up under two
platforms, so the flat key-uniqueness invariant does not hold across
platforms, and the flattened projection silently attributes "star" to the
later platform, shadowing the github entry. -/
theorem claim_C3_counterexample :
    createActivityType [] "star" "github" =
      .ok ([("github", some [("star", defaultDefinition "star")])], true) ∧
    createActivityType [("github", some [("star", defaultDefinition "star")])]
        "star" "discord" =
      .ok ([("github", some [("star", defaultDefinition "star")]),
            ("discord", some [("star", defaultDefinition "star")])], true) ∧
    lookupNested [("github", some [("star", defaultDefinition "star")]),
        ("discord", some [("star", defaultDefinition "star")])] "github" "star" =
      some (defaultDefinition "star") ∧
    lookupNested [("github", some [("star", defaultDefinition "star")]),
        ("discord", some [("star", defaultDefinition "star")])] "discord" "star" =
      some (defaultDefinition "star") ∧
    jsGet (unnestActivityTypes
        [("github", some [("star", defaultDefinition "star")]),
         ("discord", some [("star", defaultDefinition "star")])]) "star" =
      some (defaultDefinition "star", "discord") :=
  ⟨by decide, by decide, by decide, by decide, by decide⟩

/-- Claim C3 (amended): typeKey uniqueness is enforced only within a single
platform: createActivityType never overwrites an existing
(platform, typeKey) entry — a colliding create under the same platform is a
no-op that returns the configuration unchanged without writing. Across
different platforms the same typeKey may be created, and the flattened
projection then keeps only the entry of the last platform. -/
theorem claim_C3_amended (c : Custom) (type platform : String)
    (d : ActivityTypeDefinition) (htype : type ≠ "")
    (hdup : lookupNested c (jsToLower platform) (jsToLower type) = some d) :
    createActivityType c type platform = .ok (c, false) := by
  simp only [createActivityType, if_neg htype]
  cases hp : getPlat c (jsToLower platform) with
  | none =>
    rw [lookupNested, hp] at hdup
    simp at hdup
  | some m =>
    rw [lookupNested, hp] at hdup
    simp only [Option.some_bind] at hdup
    simp [hdup]

/-- Witness for C3: a duplicate create of ("fork", "discord") on a
configuration already holding it returns the configuration unchanged with
no write. -/
theorem claim_C3_witness :
    createActivityType [("discord", some [("fork", defaultDefinition "fork")])]
        "fork" "discord" =
      .ok ([("discord", some [("fork", defaultDefinition "fork")])], false) :=
  claim_C3_amended [("discord", some [("fork", defaultDefinition "fork")])]
    "fork" "discord" (defaultDefinition "fork") (by decide) (by decide)

/-- Claim C8: updateActivityChannels with a non-empty channel appends the
channel to an existing platform list only when absent (preserving the order
and producing no duplicate), and creates a singleton list when the platform
has no list yet. -/
theorem claim_C8 (channels : ObjMap (List String)) (platform channel : String)
    (hch : channel ≠ "") :
    (∀ l, jsGet channels platform = some l →
      updateActivityChannels channels platform channel =
        .ok (jsSet channels platform (if channel ∈ l then l else l ++ [channel])) ∧
      (l.Nodup → (if channel ∈ l then l else l ++ [channel]).Nodup)) ∧
    (jsGet channels platform = none →
      updateActivityChannels channels platform channel =
        .ok (jsSet channels platform [channel])) := by
  constructor
  · intro l hl
    constructor
    · simp only [updateActivityChannels, if_neg hch, hl]
      by_cases hc : channel ∈ l
      · simp [hc, jsSet_of_jsGet_eq channels platform l hl]
      · simp [hc]
    · intro hnd
      by_cases hc : channel ∈ l
      · simp [hc, hnd]
      · simp [hc, hnd, List.nodup_append]
  · intro hl
    simp [updateActivityChannels, if_neg hch, hl]

/-- Witness for C8: appending the absent channel "dev" to the github list
["main"] appends at the end without duplicating. -/
theorem claim_C8_witness :
    updateActivityChannels [("github", ["main"])] "github" "dev" =
      .ok [("github", ["main", "dev"])] ∧
    (["main", "dev"] : List String).Nodup := by
  have h := (claim_C8 [("github", ["main"])] "github" "dev" (by decide)).1 ["main"] rfl
  exact ⟨h.1, h.2 (by decide)⟩

theorem mem_keys_jsSet {α : Type} (l : ObjMap α) (k : String) (v : α) (a : String)
    (h : a ∈ (jsSet l k v).map Prod.fst) : a = k ∨ a ∈ l.map Prod.fst := by
  induction l with
  | nil =>
    simp [jsSet] at h
    exact Or.inl h
  | cons e rest ih =>
    by_cases he : e.1 = k
    · rw [jsSet, if_pos he] at h
      rcases List.mem_cons.mp h with h1 | h1
      · exact Or.inl h1
      · exact Or.inr (by rw [List.map_cons]; exact List.mem_cons_of_mem _ h1)
    · rw [jsSet, if_neg he] at h
      rcases List.mem_cons.mp h with h1 | h1
      · exact Or.inr (by rw [h1, List.map_cons]; exact List.mem_cons_self _ _)
      · rcases ih h1 with h2 | h2
        · exact Or.inl h2
        · exact Or.inr (List.mem_cons_of_mem _ h2)

theorem WFobj_jsSet {α : Type} (l : ObjMap α) (k : String) (v : α)
    (h : WFobj l) : WFobj (jsSet l k v) := by
  induction l with
  | nil => simp [jsSet, WFobj]
  | cons e rest ih =>
    rw [WFobj] at h ⊢
    by_cases he : e.1 = k
    · rw [jsSet, if_pos he]
      rw [List.map_cons, List.nodup_cons] at h ⊢
      exact ⟨by rw [← he]; exact h.1, h.2⟩
    · rw [jsSet, if_neg he]
      rw [List.map_cons, List.nodup_cons] at h ⊢
      refine ⟨?_, ih h.2⟩
      intro hmem
      rcases mem_keys_jsSet rest k v e.1 hmem with h1 | h1
      · exact he h1
      · exact h.1 h1

theorem getPlat_eq_some (c : Custom) (p : String) (m : ObjMap ActivityTypeDefinition)
    (h : getPlat c p = some m) : jsGet c p = some (some m) := by
  rw [getPlat] at h
  cases hj : jsGet c p with
  | none =>
    rw [hj] at h
    simp at h
  | some v =>
    cases v with
    | none =>
      rw [hj] at h
      simp at h
    | some m' =>
      rw [hj] at h
      simp at h
      rw [h]

/-- Counterexample to C7 as stated: inserting ("star", settings) under
platform "a" and flattening does not yield the inserted entry when a later
platform also maps "star" — the later platform wins in the flattened
view. -/
theorem claim_C7_counterexample :
    jsGet (unnestActivityTypes (nestedInsert
        [("a", some [("star", defaultDefinition "one")]),
         ("b", some [("star", defaultDefinition "two")])]
        "a" "star" (defaultDefinition "ins"))) "star" =
      some (defaultDefinition "two", "b") ∧
    some (defaultDefinition "two", "b") ≠ some (defaultDefinition "ins", "a") :=
  ⟨by decide, by decide⟩

/-- Claim C7 (amended): flattening is a left inverse of the nested insert
at keys no other platform holds: for every well-formed configuration in
which no platform other than the inserted one maps the key, inserting the
settings at [platform][key] and then flattening yields
key ↦ (settings, platform). In general a platform listed later that also
maps the key overwrites the inserted entry in the flattened view. -/
theorem claim_C7_amended (c : Custom) (p k : String) (s : ActivityTypeDefinition)
    (hWF : WFcustom c)
    (hother : ∀ p' m, p' ≠ p → getPlat c p' = some m → jsGet m k = none) :
    jsGet (unnestActivityTypes (nestedInsert c p k s)) k = some (s, p) := by
  have key : ∀ m' : ObjMap ActivityTypeDefinition, WFobj m' → jsGet m' k = some s →
      jsGet (unnestActivityTypes (jsSet c p (some m'))) k = some (s, p) := by
    intro m' hWFm' hm'
    apply unnestFrom_hit (jsSet c p (some m')) [] k s p m' (mem_jsSet_self c p (some m'))
    intro e he
    rcases mem_jsSet_of_nodup c p (some m') e hWF.1 he with h1 | h1
    · subst h1
      intro mm hmm
      simp only [Option.some.injEq] at hmm
      subst hmm
      exact ⟨hWFm', fun _ => hm', fun hne => absurd rfl hne⟩
    · intro mm hmm
      have hj : jsGet c e.1 = some e.2 := jsGet_of_mem_nodup c e.1 e.2 hWF.1 h1.1
      have hget : getPlat c e.1 = some mm := by
        simp [getPlat, hj, hmm]
      exact ⟨hWF.2 e h1.1 mm hmm, fun hp => absurd hp h1.2,
        fun _ => hother e.1 mm h1.2 hget⟩
  cases hp : getPlat c p with
  | none =>
    have hni : nestedInsert c p k s = jsSet c p (some (jsSet [] k s)) := by
      rw [nestedInsert, hp]
    rw [hni]
    exact key _ (by simp [WFobj, jsSet]) (jsGet_jsSet_self _ _ _)
  | some m =>
    have hni : nestedInsert c p k s = jsSet c p (some (jsSet m k s)) := by
      rw [nestedInsert, hp]
    rw [hni]
    have hmem : (p, some m) ∈ c := mem_of_jsGet_eq_some c p (some m) (getPlat_eq_some c p m hp)
    have hWFm : WFobj m := hWF.2 (p, some m) hmem m rfl
    exact key _ (WFobj_jsSet m k s hWFm) (jsGet_jsSet_self _ _ _)

/-- Witness for C7: inserting ("fork", settings) under platform "a" into
the empty configuration and flattening yields exactly the inserted entry. -/
theorem claim_C7_witness :
    jsGet (unnestActivityTypes (nestedInsert [] "a" "fork" (defaultDefinition "f")))
        "fork" = some (defaultDefinition "f", "a") :=
  claim_C7_amended [] "a" "fork" (defaultDefinition "f")
    ⟨by simp [WFobj], by simp⟩
    (by
      intro p' m _ hget
      simp [getPlat, jsGet] at hget)

/-- Claim C9: when the key is present in the flattened view, attributed to
platform p, destroyActivityType performs a write that removes exactly the
(p, key) entry from the nested structure and leaves every other
(platform, typeKey) entry untouched. -/
theorem claim_C9 (c : Custom) (key : String) (d : ActivityTypeDefinition)
    (p : String) (hWF : WFcustom c)
    (hflat : jsGet (unnestActivityTypes c) key = some (d, p)) :
    (destroyActivityType c key).2 = true ∧
    lookupNested (destroyActivityType c key).1 p key = none ∧
    ∀ p' k', ¬(p' = p ∧ k' = key) →
      lookupNested (destroyActivityType c key).1 p' k' = lookupNested c p' k' := by
  obtain ⟨m, hgp, hgm⟩ := unnest_lookup c key d p hWF hflat
  have hdes : destroyActivityType c key = (jsSet c p (some (jsDelete m key)), true) := by
    simp only [destroyActivityType, hflat, hgp]
  rw [hdes]
  refine ⟨rfl, ?_, ?_⟩
  · simp [lookupNested, getPlat_jsSet_self, jsGet_jsDelete_self]
  · intro p' k' hne
    by_cases hp : p' = p
    · subst hp
      have hk : k' ≠ key := fun h => hne ⟨rfl, h⟩
      simp [lookupNested, getPlat_jsSet_self, hgp, jsGet_jsDelete_ne _ _ _ hk]
    · simp [lookupNested, getPlat_jsSet_ne _ _ _ _ hp]

/-- Witness for C9: destroying "star" (owned by "github") removes exactly
that entry and leaves the sibling entry "fork" untouched. -/
theorem claim_C9_witness :
    (destroyActivityType
      [("github", some [("star", defaultDefinition "star"),
                        ("fork", defaultDefinition "fork")])] "star").2 = true ∧
    lookupNested (destroyActivityType
      [("github", some [("star", defaultDefinition "star"),
                        ("fork", defaultDefinition "fork")])] "star").1
      "github" "star" = none ∧
    lookupNested (destroyActivityType
      [("github", some [("star", defaultDefinition "star"),
                        ("fork", defaultDefinition "fork")])] "star").1
      "github" "fork" =
    lookupNested
      [("github", some [("star", defaultDefinition "star"),
                        ("fork", defaultDefinition "fork")])] "github" "fork" := by
  have h := claim_C9
    [("github", some [("star", defaultDefinition "star"),
                      ("fork", defaultDefinition "fork")])]
    "star" (defaultDefinition "star") "github"
    (by
      refine ⟨by unfold WFobj; decide, ?_⟩
      intro e he m hm
      simp at he
      subst he
      simp at hm
      subst hm
      unfold WFobj
      decide)
    (by decide)
  exact ⟨h.1, h.2.1, h.2.2 "github" "fork" (by decide)⟩

end SegmentSpec
